import Mathlib

/-!
Verification development for the mailbox/channel registry core
(`so_5::impl::mbox_core_t`, file `so_5/impl/mbox_core.cpp`).

The C++ code is shallowly embedded: the registry object becomes an explicit
state record, each member function becomes a pure function from state to
(result, state), and C++ exceptions become `Except` results paired with the
state as it stands at the point of the throw (C++ mutations are not rolled
back by an exception, so the state returned alongside an error is whatever
the function had produced before throwing).

Modelling conventions:
 * `m_mbox_id_counter` is an atomic counter of type `mbox_id_t` in C++.
   The definition of `mbox_id_t` is not part of the translated sources; the
   spec treats it as a fixed-width unsigned counter that can overflow, so it
   is modelled as a `Nat` reduced modulo `ID_MOD = 2 ^ 64` at each increment
   (the width only matters for the overflow analysis, which is insensitive
   to the exact width).
 * `m_external_ref_count` is a C++ `unsigned int`; it is modelled as `Nat`.
   None of the analysed properties depends on its width, and every count
   reachable through the dictionary operations is positive, on which values
   the C++ `--`/`++` and the `Nat` operations agree.
 * `std::map` becomes an association list with unique keys (uniqueness is a
   `std::map` structural guarantee; here it is an explicit well-formedness
   predicate `dict_wf`). `find` / `emplace` / `erase(it)` / in-place update
   through an iterator become the corresponding first-occurrence list
   operations.
-/

/-- Width modulus of the identity counter. Modelled from the spec: the
`mbox_id_t` type itself is outside the translated sources; the spec's error
taxonomy describes the counter as a fixed-width integer whose overflow is a
concern, and it is modelled here as 64-bit unsigned. -/
def ID_MOD : Nat := 2 ^ 64

/-- Error conditions of the registry, from the spec's error taxonomy. -/
inductive so_error
  | invalid_argument
  | construction_failure
  | resource_exhaustion
deriving DecidableEq

/-- Key of the named-mbox dictionary: (namespace name, mbox name). -/
structure full_named_mbox_id_t where
  namespace_name : String
  name : String
deriving DecidableEq

/-- The mailbox variant family. Each C++ implementation class becomes a
constructor; the traced sibling of each variant is a distinct constructor
(in C++ it is a distinct class receiving the tracing sink). A
`named_local_mbox` is the proxy produced by the dictionary: it records the
key and wraps the underlying mbox it aliases. -/
inductive mbox_t
  | local_mbox_without_tracing (id : Nat)
  | local_mbox_with_tracing (id : Nat)
  | ordinary_mpsc_mbox_without_tracing (id : Nat) (owner : Nat)
  | ordinary_mpsc_mbox_with_tracing (id : Nat) (owner : Nat)
  | limitless_mpsc_mbox_without_tracing (id : Nat) (owner : Nat)
  | limitless_mpsc_mbox_with_tracing (id : Nat) (owner : Nat)
  | named_local_mbox (key : full_named_mbox_id_t) (underlying : mbox_t)
  | custom_mbox (id : Nat)
deriving DecidableEq

/-- The identity carried by a mailbox; a named alias reports the identity of
the mailbox it wraps. -/
def mbox_id : mbox_t → Nat
  | .local_mbox_without_tracing i => i
  | .local_mbox_with_tracing i => i
  | .ordinary_mpsc_mbox_without_tracing i _ => i
  | .ordinary_mpsc_mbox_with_tracing i _ => i
  | .limitless_mpsc_mbox_without_tracing i _ => i
  | .limitless_mpsc_mbox_with_tracing i _ => i
  | .named_local_mbox _ u => mbox_id u
  | .custom_mbox i => i

/-- Whether a mailbox is the traced sibling of its variant. -/
def is_traced : mbox_t → Bool
  | .local_mbox_without_tracing _ => false
  | .local_mbox_with_tracing _ => true
  | .ordinary_mpsc_mbox_without_tracing _ _ => false
  | .ordinary_mpsc_mbox_with_tracing _ _ => true
  | .limitless_mpsc_mbox_without_tracing _ _ => false
  | .limitless_mpsc_mbox_with_tracing _ _ => true
  | .named_local_mbox _ u => is_traced u
  | .custom_mbox _ => false

/-- Value stored in the named-mbox dictionary: the underlying mbox and the
external reference count (C++ `named_mbox_info_t`, whose definition lives in
the header; the count field is visible in the translated source as
`m_external_ref_count`). -/
structure named_mbox_info_t where
  m_mbox : mbox_t
  m_external_ref_count : Nat
deriving DecidableEq

/-- The dictionary `std::map< full_named_mbox_id_t, named_mbox_info_t >`
as an association list with unique keys. -/
abbrev named_mboxes_dictionary_t : Type :=
  List (full_named_mbox_id_t × named_mbox_info_t)

/-- State of `mbox_core_t`: the tracing gate value read from the external
`msg_tracing::holder_t` (read-only for this core), the identity counter
(initialised to 1 by the constructor) and the named-mbox dictionary. -/
structure mbox_core_t where
  m_msg_tracing_enabled : Bool
  m_mbox_id_counter : Nat
  m_named_mboxes_dictionary : named_mboxes_dictionary_t
deriving DecidableEq

/-- The `mbox_core_t` constructor: counter starts at 1, dictionary empty. -/
def mbox_core_make (tracing_enabled : Bool) : mbox_core_t :=
  { m_msg_tracing_enabled := tracing_enabled
    m_mbox_id_counter := 1
    m_named_mboxes_dictionary := [] }

/-- `std::map::find`, first occurrence of the key. -/
def dict_find : named_mboxes_dictionary_t → full_named_mbox_id_t →
    Option named_mbox_info_t
  | [], _ => none
  | p :: rest, k => if p.1 = k then some p.2 else dict_find rest k

/-- Reference count recorded for a key, 0 when absent. -/
def ref_count_of (d : named_mboxes_dictionary_t)
    (k : full_named_mbox_id_t) : Nat :=
  match dict_find d k with
  | some info => info.m_external_ref_count
  | none => 0

/-- In-place `++(it->second.m_external_ref_count)` on the found entry. -/
def dict_increment : named_mboxes_dictionary_t → full_named_mbox_id_t →
    named_mboxes_dictionary_t
  | [], _ => []
  | p :: rest, k =>
      if p.1 = k then
        (p.1, ⟨p.2.m_mbox, p.2.m_external_ref_count + 1⟩) :: rest
      else
        p :: dict_increment rest k

/-- In-place replacement of the found entry's value (the decrement path of
`destroy_mbox` writes the new count through the iterator). -/
def dict_set : named_mboxes_dictionary_t → full_named_mbox_id_t →
    named_mbox_info_t → named_mboxes_dictionary_t
  | [], _, _ => []
  | p :: rest, k, v =>
      if p.1 = k then (p.1, v) :: rest else p :: dict_set rest k v

/-- `std::map::erase(it)`: removes the (unique) entry with the key. -/
def dict_erase : named_mboxes_dictionary_t → full_named_mbox_id_t →
    named_mboxes_dictionary_t
  | [], _ => []
  | p :: rest, k => if p.1 = k then rest else p :: dict_erase rest k

/-- `std::map::emplace`: inserts only when the key is absent. -/
def dict_emplace : named_mboxes_dictionary_t → full_named_mbox_id_t →
    named_mbox_info_t → named_mboxes_dictionary_t
  | [], k, v => [(k, v)]
  | p :: rest, k, v =>
      if p.1 = k then p :: rest else p :: dict_emplace rest k v

/-- Keys of the dictionary in order. -/
def dict_keys (d : named_mboxes_dictionary_t) : List full_named_mbox_id_t :=
  d.map Prod.fst

/-- Structural well-formedness inherited from `std::map`: keys are unique. -/
def dict_wf (d : named_mboxes_dictionary_t) : Prop :=
  (dict_keys d).Nodup

/-- The spec's dictionary invariant: every entry present in the dictionary
has a positive external reference count. -/
def dict_invariant (d : named_mboxes_dictionary_t) : Prop :=
  ∀ k info, dict_find d k = some info → 0 < info.m_external_ref_count

/-- `allocate_mbox_id`: `return ++m_mbox_id_counter;` — an unchecked,
`noexcept` pre-increment of the shared counter (wrapping at the type width),
returning the incremented value. Every creation operation below draws its
identity by this same increment. -/
def allocate_mbox_id (s : mbox_core_t) : Nat × mbox_core_t :=
  let id := (s.m_mbox_id_counter + 1) % ID_MOD
  (id, { s with m_mbox_id_counter := id })

/-- `create_mbox(env)` — the anonymous multi-producer/multi-consumer mbox:
draws a fresh identity, then consults the tracing gate to pick
`local_mbox_without_tracing` or `local_mbox_with_tracing`. -/
def create_mbox (s : mbox_core_t) : mbox_t × mbox_core_t :=
  let a := allocate_mbox_id s
  if ! s.m_msg_tracing_enabled then
    (.local_mbox_without_tracing a.1, a.2)
  else
    (.local_mbox_with_tracing a.1, a.2)

/-- The `make_actual_mbox< M1, M2 >` helper: consults the tracing gate once
and yields the plain variant when tracing is disabled, the traced variant
otherwise. -/
def make_actual_mbox (tracing_enabled : Bool) (m1 m2 : mbox_t) : mbox_t :=
  if ! tracing_enabled then m1 else m2

/-- `create_ordinary_mpsc_mbox(owner)`. -/
def create_ordinary_mpsc_mbox (owner : Nat) (s : mbox_core_t) :
    mbox_t × mbox_core_t :=
  let a := allocate_mbox_id s
  (make_actual_mbox s.m_msg_tracing_enabled
      (.ordinary_mpsc_mbox_without_tracing a.1 owner)
      (.ordinary_mpsc_mbox_with_tracing a.1 owner),
    a.2)

/-- `create_limitless_mpsc_mbox(owner)`. -/
def create_limitless_mpsc_mbox (owner : Nat) (s : mbox_core_t) :
    mbox_t × mbox_core_t :=
  let a := allocate_mbox_id s
  (make_actual_mbox s.m_msg_tracing_enabled
      (.limitless_mpsc_mbox_without_tracing a.1 owner)
      (.limitless_mpsc_mbox_with_tracing a.1 owner),
    a.2)

/-- `destroy_mbox(name)` (`noexcept`): under the dictionary lock, look the
key up; when present, decrement the external reference count and erase the
entry when the count reaches zero; an absent key is a silent no-op. -/
def destroy_mbox (key : full_named_mbox_id_t) (s : mbox_core_t) :
    mbox_core_t :=
  match dict_find s.m_named_mboxes_dictionary key with
  | none => s
  | some info =>
      let ref_count := info.m_external_ref_count - 1
      if ref_count = 0 then
        let d := dict_erase s.m_named_mboxes_dictionary key
        { s with m_named_mboxes_dictionary := d }
      else
        let d := dict_set s.m_named_mboxes_dictionary key
          (named_mbox_info_t.mk info.m_mbox ref_count)
        { s with m_named_mboxes_dictionary := d }

/-- `create_custom_mbox(env, creator)`: draws a fresh identity first, then
hands the identity (with the environment and tracing references) to the
externally supplied creator; whatever the creator returns — value or error —
is passed through unchanged. -/
def create_custom_mbox (creator : Nat → Except so_error mbox_t)
    (s : mbox_core_t) : Except so_error mbox_t × mbox_core_t :=
  let a := allocate_mbox_id s
  (creator a.1, a.2)

/-- The construction of a `named_local_mbox_t` proxy by `new`; an allocation
can fail, so the constructor is threaded through `create_named_mbox` as a
fallible function. `mk_named_local_mbox` is the non-failing instance used by
the public entry points. -/
def mk_named_local_mbox (key : full_named_mbox_id_t) (underlying : mbox_t) :
    Except so_error mbox_t :=
  .ok (.named_local_mbox key underlying)

/-- `create_named_mbox(namespace_name, nonempty_name, factory)` — the
create-or-attach operation, translated branch for branch:
 * key present: construct the proxy over the stored mbox first (for strong
   exception safety), and only then increment the reference count;
 * key absent: run the factory, construct the proxy over its result, and
   only after both succeeded emplace the entry with reference count 1
   (count initialisation from the spec: "Insert the dictionary entry with
   count = 1", the `named_mbox_info_t` constructor being in the header).
`mk_proxy` is the (fallible) `named_local_mbox_t` allocation and `factory`
the `std::function< mbox_t() >` argument, which may itself fail and update
the state (the real factories only draw identities). -/
def create_named_mbox
    (mk_proxy : full_named_mbox_id_t → mbox_t → Except so_error mbox_t)
    (factory : mbox_core_t → Except so_error mbox_t × mbox_core_t)
    (key : full_named_mbox_id_t)
    (s : mbox_core_t) : Except so_error mbox_t × mbox_core_t :=
  match dict_find s.m_named_mboxes_dictionary key with
  | some info =>
      match mk_proxy key info.m_mbox with
      | .error e => (.error e, s)
      | .ok result =>
          let d := dict_increment s.m_named_mboxes_dictionary key
          (.ok result, { s with m_named_mboxes_dictionary := d })
  | none =>
      match factory s with
      | (.error e, s2) => (.error e, s2)
      | (.ok mbox_ref, s2) =>
          match mk_proxy key mbox_ref with
          | .error e => (.error e, s2)
          | .ok result =>
              let d := dict_emplace s2.m_named_mboxes_dictionary key
                (named_mbox_info_t.mk mbox_ref 1)
              (.ok result, { s2 with m_named_mboxes_dictionary := d })

/-- The factory the named `create_mbox` overload passes to
`create_named_mbox`: `[&env, this]() { return create_mbox(env); }`. -/
def anonymous_factory (s : mbox_core_t) :
    Except so_error mbox_t × mbox_core_t :=
  let r := create_mbox s
  (.ok r.1, r.2)

/-- Modelled from the spec: the default namespace used by the name-only
`create_mbox` overload (`default_global_mbox_namespace()` is defined outside
the translated sources); its concrete value is irrelevant to every analysed
property, it only has to be a fixed non-empty string. -/
def default_global_mbox_namespace : String := "<global>"

/-- Modelled from the spec: the registry-level
`create_named_endpoint(namespace, name)` operation. The namespace-taking
C++ entry point (`introduce_named_mbox`) is only a disabled stub in the
translated sources, and the validating wrapper types `nonempty_name_t` /
`mbox_namespace_name_t` live outside them; per the spec both strings must be
non-empty, an empty string fails with `InvalidArgument` before anything is
mutated, and the operation then delegates to the dictionary's
create-or-attach with the anonymous-endpoint factory. -/
def create_named_endpoint (namespace_name name : String)
    (s : mbox_core_t) : Except so_error mbox_t × mbox_core_t :=
  if namespace_name.isEmpty then (.error .invalid_argument, s)
  else if name.isEmpty then (.error .invalid_argument, s)
  else
    create_named_mbox mk_named_local_mbox anonymous_factory
      ⟨namespace_name, name⟩ s

/-- The name-only `create_mbox(env, nonempty_name)` overload: delegates to
`create_named_mbox` under the default global namespace. -/
def create_mbox_named (name : String) (s : mbox_core_t) :
    Except so_error mbox_t × mbox_core_t :=
  create_named_endpoint default_global_mbox_namespace name s

/-- Memory-usage component of an mchain capacity (`memory_usage_t`). -/
inductive memory_usage_t
  | dynamic
  | preallocated
deriving DecidableEq

/-- An mchain capacity: an `unlimited` flag plus, for limited chains, the
memory-usage discipline (further capacity fields are irrelevant here). -/
structure capacity_t where
  unlimited : Bool
  memory_usage : memory_usage_t
deriving DecidableEq

/-- `mchain_params_t`, reduced to the capacity it carries. -/
structure mchain_params_t where
  capacity : capacity_t
deriving DecidableEq

/-- The three demand-queue disciplines an mchain can be built with. -/
inductive demand_queue_t
  | unlimited_demand_queue
  | limited_dynamic_demand_queue
  | limited_preallocated_demand_queue
deriving DecidableEq

/-- An mchain: identity, selected queue discipline, tracing choice. -/
structure mchain_t where
  id : Nat
  queue : demand_queue_t
  traced : Bool
deriving DecidableEq

/-- `create_mchain(env, params)`: draws a fresh identity and selects the
demand-queue discipline from the capacity, mirroring the source's
`if unlimited / else if dynamic / else` chain. -/
def create_mchain (params : mchain_params_t) (s : mbox_core_t) :
    mchain_t × mbox_core_t :=
  let a := allocate_mbox_id s
  let queue :=
    if params.capacity.unlimited then
      demand_queue_t.unlimited_demand_queue
    else if memory_usage_t.dynamic = params.capacity.memory_usage then
      demand_queue_t.limited_dynamic_demand_queue
    else
      demand_queue_t.limited_preallocated_demand_queue
  ({ id := a.1, queue := queue, traced := s.m_msg_tracing_enabled }, a.2)

/-- `query_stats()`: the number of named entries, read under the lock. -/
def query_stats (s : mbox_core_t) : Nat :=
  s.m_named_mboxes_dictionary.length

/-- Iterated create-or-attach: `n` successive `create_named_endpoint` calls
for the same (namespace, name) pair, keeping only the registry state. -/
def create_named_n : Nat → String → String → mbox_core_t → mbox_core_t
  | 0, _, _, s => s
  | n + 1, ns, nm, s =>
      create_named_n n ns nm (create_named_endpoint ns nm s).2

/-- Iterated release: `n` successive `destroy_mbox` calls for the key. -/
def destroy_n : Nat → full_named_mbox_id_t → mbox_core_t → mbox_core_t
  | 0, _, s => s
  | n + 1, k, s => destroy_n n k (destroy_mbox k s)

/-- One registry call in an identity-allocation trace: the six operations
that draw from the shared counter, plus `destroy_mbox`, which does not. -/
inductive create_op
  | op_create_mbox
  | op_create_ordinary_mpsc (owner : Nat)
  | op_create_limitless_mpsc (owner : Nat)
  | op_create_custom (creator : Nat → Except so_error mbox_t)
  | op_create_mchain (params : mchain_params_t)
  | op_allocate_mbox_id
  | op_destroy_mbox (key : full_named_mbox_id_t)

/-- How many identities an operation draws from the shared counter. -/
def op_allocates : create_op → Nat
  | .op_destroy_mbox _ => 0
  | _ => 1

/-- Run one trace operation, reporting the identity it drew (for
`op_create_custom` the identity handed to the creator — the creator is free
to put anything into the mbox it returns, but the consumed identity is the
one the registry allocated; for the other creation calls the drawn identity
is the one carried by the returned object). -/
def run_op : create_op → mbox_core_t → Option Nat × mbox_core_t
  | .op_create_mbox, s =>
      let r := create_mbox s
      (some (mbox_id r.1), r.2)
  | .op_create_ordinary_mpsc owner, s =>
      let r := create_ordinary_mpsc_mbox owner s
      (some (mbox_id r.1), r.2)
  | .op_create_limitless_mpsc owner, s =>
      let r := create_limitless_mpsc_mbox owner s
      (some (mbox_id r.1), r.2)
  | .op_create_custom creator, s =>
      let r := create_custom_mbox creator s
      (some r.2.m_mbox_id_counter, r.2)
  | .op_create_mchain params, s =>
      let r := create_mchain params s
      (some r.1.id, r.2)
  | .op_allocate_mbox_id, s =>
      let r := allocate_mbox_id s
      (some r.1, r.2)
  | .op_destroy_mbox key, s => (none, destroy_mbox key s)

/-- Run a trace of operations, collecting the drawn identities in order. -/
def run_ops : List create_op → mbox_core_t → List Nat × mbox_core_t
  | [], s => ([], s)
  | op :: rest, s =>
      let r := run_op op s
      let rr := run_ops rest r.2
      (match r.1 with
        | some i => i :: rr.1
        | none => rr.1,
       rr.2)

/-- Total number of identities a trace draws from the counter. -/
def num_allocations (ops : List create_op) : Nat :=
  (ops.map op_allocates).sum

/-! Helper lemmas about the dictionary operations. -/

theorem dict_find_not_mem (d : named_mboxes_dictionary_t)
    (k : full_named_mbox_id_t) (h : k ∉ dict_keys d) :
    dict_find d k = none := by
  induction d with
  | nil => rfl
  | cons p rest ih =>
      have hp : p.1 ≠ k := fun he => h (by simp [dict_keys, he])
      have hrest : k ∉ dict_keys rest := by
        intro hm
        exact h (by simp [dict_keys] at hm ⊢; exact Or.inr hm)
      simp [dict_find, hp, ih hrest]

theorem dict_find_increment_self (d : named_mboxes_dictionary_t)
    (k : full_named_mbox_id_t) :
    dict_find (dict_increment d k) k =
      (dict_find d k).map
        (fun i => named_mbox_info_t.mk i.m_mbox (i.m_external_ref_count + 1)) := by
  induction d with
  | nil => rfl
  | cons p rest ih =>
      by_cases h : p.1 = k
      · simp [dict_increment, dict_find, h]
      · simp [dict_increment, dict_find, h, ih]

theorem dict_find_increment_ne (d : named_mboxes_dictionary_t)
    (k k' : full_named_mbox_id_t) (h : k' ≠ k) :
    dict_find (dict_increment d k) k' = dict_find d k' := by
  have hk : ¬ (k = k') := fun he => h he.symm
  induction d with
  | nil => rfl
  | cons p rest ih =>
      by_cases hp : p.1 = k
      · simp [dict_increment, dict_find, hp, hk]
      · by_cases hq : p.1 = k'
        · simp [dict_increment, dict_find, hp, hq, h]
        · simp [dict_increment, dict_find, hp, hq, ih]

theorem dict_find_set_self (d : named_mboxes_dictionary_t)
    (k : full_named_mbox_id_t) (v : named_mbox_info_t)
    (h : (dict_find d k).isSome) :
    dict_find (dict_set d k v) k = some v := by
  induction d with
  | nil => simp [dict_find] at h
  | cons p rest ih =>
      by_cases hp : p.1 = k
      · simp [dict_set, dict_find, hp]
      · simp [dict_find, hp] at h
        simp [dict_set, dict_find, hp, ih h]

theorem dict_find_set_ne (d : named_mboxes_dictionary_t)
    (k k' : full_named_mbox_id_t) (v : named_mbox_info_t) (h : k' ≠ k) :
    dict_find (dict_set d k v) k' = dict_find d k' := by
  have hk : ¬ (k = k') := fun he => h he.symm
  induction d with
  | nil => rfl
  | cons p rest ih =>
      by_cases hp : p.1 = k
      · simp [dict_set, dict_find, hp, hk]
      · by_cases hq : p.1 = k'
        · simp [dict_set, dict_find, hp, hq, h]
        · simp [dict_set, dict_find, hp, hq, ih]

theorem dict_find_erase_self (d : named_mboxes_dictionary_t)
    (k : full_named_mbox_id_t) (hwf : dict_wf d) :
    dict_find (dict_erase d k) k = none := by
  induction d with
  | nil => rfl
  | cons p rest ih =>
      rw [dict_wf, dict_keys, List.map_cons, List.nodup_cons] at hwf
      by_cases hp : p.1 = k
      · have h1 : k ∉ dict_keys rest := by rw [← hp]; exact hwf.1
        simp [dict_erase, hp, dict_find_not_mem rest k h1]
      · simp [dict_erase, dict_find, hp, ih hwf.2]

theorem dict_find_erase_ne (d : named_mboxes_dictionary_t)
    (k k' : full_named_mbox_id_t) (h : k' ≠ k) :
    dict_find (dict_erase d k) k' = dict_find d k' := by
  have hk : ¬ (k = k') := fun he => h he.symm
  induction d with
  | nil => rfl
  | cons p rest ih =>
      by_cases hp : p.1 = k
      · simp [dict_erase, dict_find, hp, hk]
      · by_cases hq : p.1 = k'
        · simp [dict_erase, dict_find, hp, hq, h]
        · simp [dict_erase, dict_find, hp, hq, ih]

theorem dict_find_emplace_self (d : named_mboxes_dictionary_t)
    (k : full_named_mbox_id_t) (v : named_mbox_info_t)
    (h : dict_find d k = none) :
    dict_find (dict_emplace d k v) k = some v := by
  induction d with
  | nil => simp [dict_emplace, dict_find]
  | cons p rest ih =>
      by_cases hp : p.1 = k
      · simp [dict_find, hp] at h
      · simp [dict_find, hp] at h
        simp [dict_emplace, dict_find, hp, ih h]

theorem dict_find_emplace_ne (d : named_mboxes_dictionary_t)
    (k k' : full_named_mbox_id_t) (v : named_mbox_info_t) (h : k' ≠ k) :
    dict_find (dict_emplace d k v) k' = dict_find d k' := by
  have hk : ¬ (k = k') := fun he => h he.symm
  induction d with
  | nil => simp [dict_emplace, dict_find, hk]
  | cons p rest ih =>
      by_cases hp : p.1 = k
      · simp [dict_emplace, dict_find, hp]
      · by_cases hq : p.1 = k'
        · simp [dict_emplace, dict_find, hp, hq, h]
        · simp [dict_emplace, dict_find, hp, hq, ih]

theorem dict_find_mem (d : named_mboxes_dictionary_t)
    (k : full_named_mbox_id_t) (info : named_mbox_info_t)
    (h : dict_find d k = some info) : (k, info) ∈ d := by
  induction d with
  | nil => simp [dict_find] at h
  | cons p rest ih =>
      by_cases hp : p.1 = k
      · simp [dict_find, hp] at h
        rw [← hp, ← h]
        simp
      · simp [dict_find, hp] at h
        exact List.mem_cons_of_mem p (ih h)

theorem dict_keys_cons (p : full_named_mbox_id_t × named_mbox_info_t)
    (rest : named_mboxes_dictionary_t) :
    dict_keys (p :: rest) = p.1 :: dict_keys rest := rfl

theorem dict_find_isSome_of_mem (d : named_mboxes_dictionary_t)
    (k : full_named_mbox_id_t) (h : k ∈ dict_keys d) :
    (dict_find d k).isSome := by
  induction d with
  | nil => simp [dict_keys] at h
  | cons p rest ih =>
      rw [dict_keys_cons] at h
      by_cases hp : p.1 = k
      · simp [dict_find, hp]
      · rcases List.mem_cons.mp h with h1 | h2
        · exact absurd h1.symm hp
        · simp [dict_find, hp, ih h2]

theorem dict_not_mem_of_find_none (d : named_mboxes_dictionary_t)
    (k : full_named_mbox_id_t) (h : dict_find d k = none) :
    k ∉ dict_keys d := by
  intro hmem
  have hs := dict_find_isSome_of_mem d k hmem
  rw [h] at hs
  simp at hs

theorem dict_keys_increment (d : named_mboxes_dictionary_t)
    (k : full_named_mbox_id_t) :
    dict_keys (dict_increment d k) = dict_keys d := by
  induction d with
  | nil => rfl
  | cons p rest ih =>
      by_cases hp : p.1 = k
      · simp [dict_increment, dict_keys, hp]
      · simp [dict_increment, dict_keys, hp]
        simpa [dict_keys] using ih

theorem dict_keys_set (d : named_mboxes_dictionary_t)
    (k : full_named_mbox_id_t) (v : named_mbox_info_t) :
    dict_keys (dict_set d k v) = dict_keys d := by
  induction d with
  | nil => rfl
  | cons p rest ih =>
      by_cases hp : p.1 = k
      · simp [dict_set, dict_keys, hp]
      · simp [dict_set, dict_keys, hp]
        simpa [dict_keys] using ih

theorem dict_keys_erase_sublist (d : named_mboxes_dictionary_t)
    (k : full_named_mbox_id_t) :
    (dict_keys (dict_erase d k)).Sublist (dict_keys d) := by
  induction d with
  | nil => simp [dict_erase]
  | cons p rest ih =>
      simp only [dict_erase]
      by_cases hp : p.1 = k
      · rw [if_pos hp, dict_keys_cons]
        exact List.sublist_cons_self _ _
      · rw [if_neg hp, dict_keys_cons, dict_keys_cons]
        exact List.Sublist.cons₂ p.1 ih

theorem dict_keys_emplace (d : named_mboxes_dictionary_t)
    (k : full_named_mbox_id_t) (v : named_mbox_info_t)
    (h : dict_find d k = none) :
    dict_keys (dict_emplace d k v) = dict_keys d ++ [k] := by
  induction d with
  | nil => simp [dict_emplace, dict_keys]
  | cons p rest ih =>
      by_cases hp : p.1 = k
      · simp [dict_find, hp] at h
      · simp [dict_find, hp] at h
        simp [dict_emplace, dict_keys, hp]
        simpa [dict_keys] using ih h

theorem dict_wf_increment (d : named_mboxes_dictionary_t)
    (k : full_named_mbox_id_t) (h : dict_wf d) :
    dict_wf (dict_increment d k) := by
  rw [dict_wf, dict_keys_increment]
  exact h

theorem dict_wf_set (d : named_mboxes_dictionary_t)
    (k : full_named_mbox_id_t) (v : named_mbox_info_t) (h : dict_wf d) :
    dict_wf (dict_set d k v) := by
  rw [dict_wf, dict_keys_set]
  exact h

theorem dict_wf_erase (d : named_mboxes_dictionary_t)
    (k : full_named_mbox_id_t) (h : dict_wf d) :
    dict_wf (dict_erase d k) :=
  List.Nodup.sublist (dict_keys_erase_sublist d k) h

theorem dict_wf_emplace (d : named_mboxes_dictionary_t)
    (k : full_named_mbox_id_t) (v : named_mbox_info_t)
    (hfind : dict_find d k = none) (h : dict_wf d) :
    dict_wf (dict_emplace d k v) := by
  rw [dict_wf, dict_keys_emplace d k v hfind]
  rw [List.nodup_append]
  refine ⟨h, List.nodup_singleton k, ?_⟩
  intro a ha hb
  simp at hb
  rw [hb] at ha
  exact dict_not_mem_of_find_none d k hfind ha

theorem dict_invariant_increment (d : named_mboxes_dictionary_t)
    (k : full_named_mbox_id_t) (h : dict_invariant d) :
    dict_invariant (dict_increment d k) := by
  intro k' info hfind
  by_cases hk : k' = k
  · rw [hk, dict_find_increment_self] at hfind
    cases hold : dict_find d k with
    | none => rw [hold] at hfind; simp at hfind
    | some i0 =>
        rw [hold] at hfind
        simp at hfind
        rw [← hfind]
        exact Nat.succ_pos _
  · rw [dict_find_increment_ne d k k' hk] at hfind
    exact h k' info hfind

theorem dict_invariant_emplace_one (d : named_mboxes_dictionary_t)
    (k : full_named_mbox_id_t) (m : mbox_t) (h : dict_invariant d) :
    dict_invariant (dict_emplace d k (named_mbox_info_t.mk m 1)) := by
  intro k' info hfind
  by_cases hk : k' = k
  · cases hold : dict_find d k with
    | none =>
        rw [hk, dict_find_emplace_self d k _ hold] at hfind
        cases hfind
        exact Nat.one_pos
    | some i0 =>
        have : dict_emplace d k (named_mbox_info_t.mk m 1) = d := by
          clear hfind h hk
          induction d with
          | nil => simp [dict_find] at hold
          | cons p rest ih =>
              by_cases hp : p.1 = k
              · simp [dict_emplace, hp]
              · simp [dict_find, hp] at hold
                simp [dict_emplace, hp, ih hold]
        rw [hk, this, hold] at hfind
        injection hfind with he
        rw [← he]
        exact h k i0 hold
  · rw [dict_find_emplace_ne d k k' _ hk] at hfind
    exact h k' info hfind

/-! Characterisation lemmas for the registry operations. -/

/-- A factory respecting the dictionary-lock discipline: it must not touch
the dictionary it is invoked under (the spec forbids re-entering the
dictionary from the factory). The concrete factories only draw identities. -/
def factory_keeps_dictionary
    (factory : mbox_core_t → Except so_error mbox_t × mbox_core_t) : Prop :=
  ∀ s : mbox_core_t,
    ((factory s).2).m_named_mboxes_dictionary = s.m_named_mboxes_dictionary

theorem anonymous_factory_keeps_dictionary :
    factory_keeps_dictionary anonymous_factory := by
  intro s
  cases htr : s.m_msg_tracing_enabled <;>
    simp [anonymous_factory, create_mbox, allocate_mbox_id, htr]

theorem create_named_mbox_present
    (factory : mbox_core_t → Except so_error mbox_t × mbox_core_t)
    (key : full_named_mbox_id_t) (s : mbox_core_t)
    (info : named_mbox_info_t)
    (h : dict_find s.m_named_mboxes_dictionary key = some info) :
    create_named_mbox mk_named_local_mbox factory key s =
      (.ok (.named_local_mbox key info.m_mbox),
        { s with m_named_mboxes_dictionary := dict_increment s.m_named_mboxes_dictionary key }) := by
  simp [create_named_mbox, h, mk_named_local_mbox]

theorem create_named_mbox_absent
    (factory : mbox_core_t → Except so_error mbox_t × mbox_core_t)
    (key : full_named_mbox_id_t) (s s2 : mbox_core_t) (m : mbox_t)
    (h : dict_find s.m_named_mboxes_dictionary key = none)
    (hfac : factory s = (.ok m, s2)) :
    create_named_mbox mk_named_local_mbox factory key s =
      (.ok (.named_local_mbox key m),
        { s2 with m_named_mboxes_dictionary := dict_emplace s2.m_named_mboxes_dictionary key (named_mbox_info_t.mk m 1) }) := by
  simp [create_named_mbox, h, hfac, mk_named_local_mbox]

theorem destroy_mbox_absent (key : full_named_mbox_id_t) (s : mbox_core_t)
    (h : dict_find s.m_named_mboxes_dictionary key = none) :
    destroy_mbox key s = s := by
  simp [destroy_mbox, h]

theorem destroy_mbox_last (key : full_named_mbox_id_t) (s : mbox_core_t)
    (info : named_mbox_info_t)
    (h : dict_find s.m_named_mboxes_dictionary key = some info)
    (hc : info.m_external_ref_count ≤ 1) :
    destroy_mbox key s =
      { s with m_named_mboxes_dictionary := dict_erase s.m_named_mboxes_dictionary key } := by
  have hz : info.m_external_ref_count - 1 = 0 := Nat.sub_eq_zero_of_le hc
  simp [destroy_mbox, h, hz]

theorem destroy_mbox_decrement (key : full_named_mbox_id_t)
    (s : mbox_core_t) (info : named_mbox_info_t)
    (h : dict_find s.m_named_mboxes_dictionary key = some info)
    (hc : 1 < info.m_external_ref_count) :
    destroy_mbox key s =
      { s with m_named_mboxes_dictionary := dict_set s.m_named_mboxes_dictionary key (named_mbox_info_t.mk info.m_mbox (info.m_external_ref_count - 1)) } := by
  have hz : ¬ (info.m_external_ref_count - 1 = 0) := by omega
  simp [destroy_mbox, h, hz]

theorem ref_count_of_increment (d : named_mboxes_dictionary_t)
    (k : full_named_mbox_id_t) (h : (dict_find d k).isSome) :
    ref_count_of (dict_increment d k) k = ref_count_of d k + 1 := by
  cases hold : dict_find d k with
  | none => rw [hold] at h; simp at h
  | some i0 =>
      rw [ref_count_of, ref_count_of, hold, dict_find_increment_self, hold]
      rfl

theorem ref_count_of_emplace (d : named_mboxes_dictionary_t)
    (k : full_named_mbox_id_t) (m : mbox_t)
    (h : dict_find d k = none) :
    ref_count_of (dict_emplace d k (named_mbox_info_t.mk m 1)) k = 1 := by
  rw [ref_count_of, dict_find_emplace_self d k _ h]

theorem create_mbox_state (s : mbox_core_t) :
    (create_mbox s).2 = { s with m_mbox_id_counter := (s.m_mbox_id_counter + 1) % ID_MOD } := by
  cases htr : s.m_msg_tracing_enabled <;>
    simp [create_mbox, allocate_mbox_id, htr]

theorem create_mbox_id (s : mbox_core_t) :
    mbox_id (create_mbox s).1 = (s.m_mbox_id_counter + 1) % ID_MOD := by
  cases htr : s.m_msg_tracing_enabled <;>
    simp [create_mbox, allocate_mbox_id, htr, mbox_id]

theorem destroy_mbox_state (key : full_named_mbox_id_t) (s : mbox_core_t) :
    (destroy_mbox key s).m_mbox_id_counter = s.m_mbox_id_counter ∧
    (destroy_mbox key s).m_msg_tracing_enabled = s.m_msg_tracing_enabled := by
  cases h : dict_find s.m_named_mboxes_dictionary key with
  | none => simp [destroy_mbox, h]
  | some info =>
      by_cases hc : info.m_external_ref_count - 1 = 0 <;>
        simp [destroy_mbox, h, hc]

theorem mod_succ_ne (a m : Nat) (hm : 1 < m) (ha : a < m) :
    (a + 1) % m ≠ a := by
  by_cases h : a + 1 < m
  · rw [Nat.mod_eq_of_lt h]
    omega
  · have he : a + 1 = m := by omega
    rw [he, Nat.mod_self]
    omega

theorem anonymous_factory_eq (s : mbox_core_t) :
    anonymous_factory s = (Except.ok (create_mbox s).1, (create_mbox s).2) :=
  rfl

theorem create_named_endpoint_eq (ns nm : String) (s : mbox_core_t)
    (hns : ns.isEmpty = false) (hnm : nm.isEmpty = false) :
    create_named_endpoint ns nm s =
      create_named_mbox mk_named_local_mbox anonymous_factory ⟨ns, nm⟩ s := by
  simp [create_named_endpoint, hns, hnm]

theorem create_named_endpoint_present (ns nm : String) (s : mbox_core_t)
    (info : named_mbox_info_t)
    (hns : ns.isEmpty = false) (hnm : nm.isEmpty = false)
    (h : dict_find s.m_named_mboxes_dictionary ⟨ns, nm⟩ = some info) :
    create_named_endpoint ns nm s =
      (Except.ok (mbox_t.named_local_mbox ⟨ns, nm⟩ info.m_mbox),
        { s with m_named_mboxes_dictionary := dict_increment s.m_named_mboxes_dictionary ⟨ns, nm⟩ }) := by
  rw [create_named_endpoint_eq ns nm s hns hnm]
  exact create_named_mbox_present anonymous_factory ⟨ns, nm⟩ s info h

theorem create_named_endpoint_absent (ns nm : String) (s : mbox_core_t)
    (hns : ns.isEmpty = false) (hnm : nm.isEmpty = false)
    (h : dict_find s.m_named_mboxes_dictionary ⟨ns, nm⟩ = none) :
    create_named_endpoint ns nm s =
      (Except.ok (mbox_t.named_local_mbox ⟨ns, nm⟩ (create_mbox s).1),
        { (create_mbox s).2 with m_named_mboxes_dictionary := dict_emplace s.m_named_mboxes_dictionary ⟨ns, nm⟩ (named_mbox_info_t.mk (create_mbox s).1 1) }) := by
  rw [create_named_endpoint_eq ns nm s hns hnm]
  have h2 := create_named_mbox_absent anonymous_factory ⟨ns, nm⟩ s
    (create_mbox s).2 (create_mbox s).1 h (anonymous_factory_eq s)
  rw [h2]
  have hd : ((create_mbox s).2).m_named_mboxes_dictionary =
      s.m_named_mboxes_dictionary := by rw [create_mbox_state s]
  rw [hd]

/-- Post-state of one successful `create_named_endpoint` call: the returned
endpoint is a named alias of the mbox stored for the key, whose count is the
old count plus one. -/
theorem create_named_endpoint_post (ns nm : String) (s : mbox_core_t)
    (hns : ns.isEmpty = false) (hnm : nm.isEmpty = false) :
    ∃ u s1,
      create_named_endpoint ns nm s = (Except.ok (mbox_t.named_local_mbox ⟨ns, nm⟩ u), s1) ∧
      dict_find s1.m_named_mboxes_dictionary ⟨ns, nm⟩ =
        some (named_mbox_info_t.mk u (ref_count_of s.m_named_mboxes_dictionary ⟨ns, nm⟩ + 1)) := by
  cases hf : dict_find s.m_named_mboxes_dictionary ⟨ns, nm⟩ with
  | some info =>
      refine ⟨info.m_mbox, _, create_named_endpoint_present ns nm s info hns hnm hf, ?_⟩
      simp only
      rw [dict_find_increment_self, hf, ref_count_of, hf]
      rfl
  | none =>
      refine ⟨(create_mbox s).1, _, create_named_endpoint_absent ns nm s hns hnm hf, ?_⟩
      simp only
      rw [dict_find_emplace_self _ _ _ hf, ref_count_of, hf]

theorem ref_count_of_none (d : named_mboxes_dictionary_t)
    (k : full_named_mbox_id_t) (h : dict_find d k = none) :
    ref_count_of d k = 0 := by
  unfold ref_count_of
  rw [h]

theorem ref_count_of_some (d : named_mboxes_dictionary_t)
    (k : full_named_mbox_id_t) (info : named_mbox_info_t)
    (h : dict_find d k = some info) :
    ref_count_of d k = info.m_external_ref_count := by
  unfold ref_count_of
  rw [h]

/-- Claim C2: strong exception safety of create-or-attach. On the absent-key
path a factory failure propagates unchanged and (for any factory observing
the lock discipline, i.e. not touching the dictionary) leaves the dictionary
exactly as it was; on the present-key path the proxy is constructed before
the count is mutated, so a proxy-construction failure leaves the whole state
(count and dictionary) unchanged. -/
theorem claim_C2_strong_exception_safety
    (mk_proxy : full_named_mbox_id_t → mbox_t → Except so_error mbox_t)
    (factory : mbox_core_t → Except so_error mbox_t × mbox_core_t)
    (key : full_named_mbox_id_t) (s : mbox_core_t) (e : so_error) :
    (∀ s2 : mbox_core_t,
      dict_find s.m_named_mboxes_dictionary key = none →
      factory s = (Except.error e, s2) →
      create_named_mbox mk_proxy factory key s = (Except.error e, s2) ∧
      (factory_keeps_dictionary factory →
        s2.m_named_mboxes_dictionary = s.m_named_mboxes_dictionary)) ∧
    (∀ info : named_mbox_info_t,
      dict_find s.m_named_mboxes_dictionary key = some info →
      mk_proxy key info.m_mbox = Except.error e →
      create_named_mbox mk_proxy factory key s = (Except.error e, s)) := by
  constructor
  · intro s2 hfind hfac
    constructor
    · simp [create_named_mbox, hfind, hfac]
    · intro hkeep
      have := hkeep s
      rw [hfac] at this
      exact this
  · intro info hfind hmk
    simp [create_named_mbox, hfind, hmk]

theorem claim_C2_witness :
    dict_find ([] : named_mboxes_dictionary_t) (full_named_mbox_id_t.mk "g" "n") = none ∧
    create_named_mbox (fun _ _ => Except.error so_error.construction_failure)
      (fun t => (Except.error so_error.construction_failure, t))
      (full_named_mbox_id_t.mk "g" "n") (mbox_core_make false) =
      (Except.error so_error.construction_failure, mbox_core_make false) := by
  constructor
  · rfl
  · exact ((claim_C2_strong_exception_safety
      (fun _ _ => Except.error so_error.construction_failure)
      (fun t => (Except.error so_error.construction_failure, t))
      (full_named_mbox_id_t.mk "g" "n") (mbox_core_make false)
      so_error.construction_failure).1 (mbox_core_make false) rfl rfl).1

/-- Claim C3: release semantics of `destroy_mbox`. For an absent key the
call is a no-op returning the state unchanged (hence idempotent once the
last holder released); for a present key the count is decremented and the
entry is erased exactly when the count reaches zero; the identity counter
and the tracing gate are never touched. (The function is total — the C++
method is `noexcept` and has no failure path.) -/
theorem claim_C3_release_semantics (key : full_named_mbox_id_t)
    (s : mbox_core_t) (hwf : dict_wf s.m_named_mboxes_dictionary) :
    (dict_find s.m_named_mboxes_dictionary key = none →
      destroy_mbox key s = s) ∧
    (∀ info : named_mbox_info_t,
      dict_find s.m_named_mboxes_dictionary key = some info →
      ref_count_of (destroy_mbox key s).m_named_mboxes_dictionary key =
        info.m_external_ref_count - 1) ∧
    (∀ info : named_mbox_info_t,
      dict_find s.m_named_mboxes_dictionary key = some info →
      (dict_find (destroy_mbox key s).m_named_mboxes_dictionary key = none ↔
        info.m_external_ref_count ≤ 1)) ∧
    (destroy_mbox key s).m_mbox_id_counter = s.m_mbox_id_counter ∧
    (destroy_mbox key s).m_msg_tracing_enabled = s.m_msg_tracing_enabled := by
  refine ⟨fun h => destroy_mbox_absent key s h, ?_, ?_,
    (destroy_mbox_state key s).1, (destroy_mbox_state key s).2⟩
  · intro info hfind
    by_cases hc : info.m_external_ref_count ≤ 1
    · rw [destroy_mbox_last key s info hfind hc]
      simp only
      rw [ref_count_of_none _ _ (dict_find_erase_self _ _ hwf)]
      omega
    · have hc' : 1 < info.m_external_ref_count := by omega
      rw [destroy_mbox_decrement key s info hfind hc']
      simp only
      rw [ref_count_of_some _ _ _ (dict_find_set_self _ _ _ (by rw [hfind]; rfl))]
  · intro info hfind
    by_cases hc : info.m_external_ref_count ≤ 1
    · rw [destroy_mbox_last key s info hfind hc]
      simp only
      rw [dict_find_erase_self _ _ hwf]
      simp [hc]
    · have hc' : 1 < info.m_external_ref_count := by omega
      rw [destroy_mbox_decrement key s info hfind hc']
      simp only
      rw [dict_find_set_self _ _ _ (by rw [hfind]; rfl)]
      simp [hc]

theorem claim_C3_witness :
    destroy_mbox (full_named_mbox_id_t.mk "g" "n") (mbox_core_make false) =
      mbox_core_make false ∧
    ref_count_of
      (destroy_mbox (full_named_mbox_id_t.mk "g" "n")
        (mbox_core_t.mk false 3
          [(full_named_mbox_id_t.mk "g" "n",
            named_mbox_info_t.mk (mbox_t.local_mbox_without_tracing 2) 2)])).m_named_mboxes_dictionary
      (full_named_mbox_id_t.mk "g" "n") = 1 := by
  constructor
  · exact (claim_C3_release_semantics (full_named_mbox_id_t.mk "g" "n")
      (mbox_core_make false) List.nodup_nil).1 rfl
  · exact (claim_C3_release_semantics (full_named_mbox_id_t.mk "g" "n")
      (mbox_core_t.mk false 3
        [(full_named_mbox_id_t.mk "g" "n",
          named_mbox_info_t.mk (mbox_t.local_mbox_without_tracing 2) 2)])
      (List.nodup_singleton _)).2.1
      (named_mbox_info_t.mk (mbox_t.local_mbox_without_tracing 2) 2) rfl

/-- Claim C7: empty-name rejection. `create_named_endpoint` with an empty
namespace, or with an empty name, fails with `InvalidArgument`, returns the
state untouched, and in particular leaves the dictionary's entry count
(`query_stats`) unchanged. -/
theorem claim_C7_empty_name_rejection (ns nm : String) (s : mbox_core_t) :
    create_named_endpoint "" nm s = (Except.error so_error.invalid_argument, s) ∧
    create_named_endpoint ns "" s = (Except.error so_error.invalid_argument, s) ∧
    query_stats (create_named_endpoint "" nm s).2 = query_stats s ∧
    query_stats (create_named_endpoint ns "" s).2 = query_stats s := by
  have he : "".isEmpty = true := rfl
  have h1 : create_named_endpoint "" nm s =
      (Except.error so_error.invalid_argument, s) := by
    simp [create_named_endpoint, he]
  have h2 : create_named_endpoint ns "" s =
      (Except.error so_error.invalid_argument, s) := by
    by_cases hn : ns.isEmpty
    · simp [create_named_endpoint, hn]
    · simp [create_named_endpoint, hn, he]
  exact ⟨h1, h2, by rw [h1], by rw [h2]⟩

/-- Claim C8: tracing selection frozen at construction. Every creation call
consults the gate value held in the state at that moment and yields exactly
one of the plain/traced sibling variants accordingly (`make_actual_mbox`
literally selects between its two candidates by the gate); toggling the gate
between two `create_mbox` calls yields one untraced and one traced endpoint,
and the two endpoints are distinct objects whose variants are fixed data. -/
theorem claim_C8_tracing_frozen (s : mbox_core_t) (owner : Nat)
    (m1 m2 : mbox_t) (g : Bool) :
    is_traced (create_mbox s).1 = s.m_msg_tracing_enabled ∧
    ((create_mbox s).1 = mbox_t.local_mbox_without_tracing ((s.m_mbox_id_counter + 1) % ID_MOD) ∨
      (create_mbox s).1 = mbox_t.local_mbox_with_tracing ((s.m_mbox_id_counter + 1) % ID_MOD)) ∧
    is_traced (create_ordinary_mpsc_mbox owner s).1 = s.m_msg_tracing_enabled ∧
    is_traced (create_limitless_mpsc_mbox owner s).1 = s.m_msg_tracing_enabled ∧
    make_actual_mbox g m1 m2 = (if g then m2 else m1) ∧
    is_traced (create_mbox { s with m_msg_tracing_enabled := false }).1 = false ∧
    is_traced (create_mbox { (create_mbox { s with m_msg_tracing_enabled := false }).2 with m_msg_tracing_enabled := true }).1 = true ∧
    (create_mbox { s with m_msg_tracing_enabled := false }).1 ≠
      (create_mbox { (create_mbox { s with m_msg_tracing_enabled := false }).2 with m_msg_tracing_enabled := true }).1 := by
  refine ⟨?_, ?_, ?_, ?_, ?_, ?_, ?_, ?_⟩
  · cases htr : s.m_msg_tracing_enabled <;>
      simp [create_mbox, allocate_mbox_id, htr, is_traced]
  · cases htr : s.m_msg_tracing_enabled <;>
      simp [create_mbox, allocate_mbox_id, htr]
  · cases htr : s.m_msg_tracing_enabled <;>
      simp [create_ordinary_mpsc_mbox, make_actual_mbox, allocate_mbox_id,
        htr, is_traced]
  · cases htr : s.m_msg_tracing_enabled <;>
      simp [create_limitless_mpsc_mbox, make_actual_mbox, allocate_mbox_id,
        htr, is_traced]
  · cases g <;> simp [make_actual_mbox]
  · simp [create_mbox, allocate_mbox_id, is_traced]
  · simp [create_mbox, allocate_mbox_id, is_traced]
  · simp [create_mbox, allocate_mbox_id]

/-- Claim C9 (counterexample): at the wrap point the allocator raises no
error at all — `allocate_mbox_id` is an unchecked `noexcept` increment that
wraps to 0, and the subsequent creation call returns an endpoint carrying
the wrapped identity 0, contradicting "a ResourceExhaustion condition is
propagated up to the caller" and "no creation call returns an identity
produced by a wrapped-around counter". -/
theorem claim_C9_counterexample :
    (allocate_mbox_id (mbox_core_t.mk false (ID_MOD - 1) [])).1 = 0 ∧
    (allocate_mbox_id (mbox_core_t.mk false (ID_MOD - 1) [])).2.m_mbox_id_counter = 0 ∧
    (create_mbox (mbox_core_t.mk false (ID_MOD - 1) [])).1 =
      mbox_t.local_mbox_without_tracing 0 := by
  refine ⟨?_, ?_, ?_⟩ <;>
    simp [allocate_mbox_id, create_mbox, ID_MOD]

/-- Claim C9 (amended): the identity allocator performs an unchecked,
wrap-around increment (`noexcept`, no overflow test anywhere in the
translated source): on every state, overflowing or not, it returns the
incremented counter modulo the type width and never surfaces any error. -/
theorem claim_C9_overflow_unchecked (s : mbox_core_t) :
    allocate_mbox_id s = (((s.m_mbox_id_counter + 1) % ID_MOD), { s with m_mbox_id_counter := (s.m_mbox_id_counter + 1) % ID_MOD }) :=
  rfl

/-- Claim C10: `create_custom_mbox` allocates the fresh identity before
invoking the supplied creator; the creator's outcome (value or error) is
passed through unchanged, the named-endpoint dictionary is untouched, and
the counter has advanced permanently even when the creator fails (it never
moves backward; below the wrap point it strictly increases). -/
theorem claim_C10_custom_mbox_frame
    (creator : Nat → Except so_error mbox_t) (s : mbox_core_t) :
    create_custom_mbox creator s = (creator ((s.m_mbox_id_counter + 1) % ID_MOD), { s with m_mbox_id_counter := (s.m_mbox_id_counter + 1) % ID_MOD }) ∧
    (create_custom_mbox creator s).2.m_named_mboxes_dictionary = s.m_named_mboxes_dictionary ∧
    (∀ e : so_error, creator ((s.m_mbox_id_counter + 1) % ID_MOD) = Except.error e →
      (create_custom_mbox creator s).1 = Except.error e) ∧
    (s.m_mbox_id_counter + 1 < ID_MOD →
      s.m_mbox_id_counter < (create_custom_mbox creator s).2.m_mbox_id_counter) := by
  refine ⟨rfl, rfl, ?_, ?_⟩
  · intro e h
    simp [create_custom_mbox, allocate_mbox_id, h]
  · intro h
    simp [create_custom_mbox, allocate_mbox_id, Nat.mod_eq_of_lt h]

theorem claim_C10_witness :
    (mbox_core_make false).m_mbox_id_counter + 1 < ID_MOD ∧
    (mbox_core_make false).m_mbox_id_counter <
      (create_custom_mbox (fun _ => Except.error so_error.construction_failure)
        (mbox_core_make false)).2.m_mbox_id_counter := by
  constructor
  · decide
  · exact (claim_C10_custom_mbox_frame
      (fun _ => Except.error so_error.construction_failure)
      (mbox_core_make false)).2.2.2 (by decide)

theorem create_named_mbox_present_ok
    (mk_proxy : full_named_mbox_id_t → mbox_t → Except so_error mbox_t)
    (factory : mbox_core_t → Except so_error mbox_t × mbox_core_t)
    (key : full_named_mbox_id_t) (s : mbox_core_t)
    (info : named_mbox_info_t) (result : mbox_t)
    (hfind : dict_find s.m_named_mboxes_dictionary key = some info)
    (hmk : mk_proxy key info.m_mbox = Except.ok result) :
    create_named_mbox mk_proxy factory key s =
      (Except.ok result, { s with m_named_mboxes_dictionary := dict_increment s.m_named_mboxes_dictionary key }) := by
  simp [create_named_mbox, hfind, hmk]

theorem create_named_mbox_present_err
    (mk_proxy : full_named_mbox_id_t → mbox_t → Except so_error mbox_t)
    (factory : mbox_core_t → Except so_error mbox_t × mbox_core_t)
    (key : full_named_mbox_id_t) (s : mbox_core_t)
    (info : named_mbox_info_t) (e : so_error)
    (hfind : dict_find s.m_named_mboxes_dictionary key = some info)
    (hmk : mk_proxy key info.m_mbox = Except.error e) :
    create_named_mbox mk_proxy factory key s = (Except.error e, s) := by
  simp [create_named_mbox, hfind, hmk]

theorem create_named_mbox_absent_fac_err
    (mk_proxy : full_named_mbox_id_t → mbox_t → Except so_error mbox_t)
    (factory : mbox_core_t → Except so_error mbox_t × mbox_core_t)
    (key : full_named_mbox_id_t) (s s2 : mbox_core_t) (e : so_error)
    (hfind : dict_find s.m_named_mboxes_dictionary key = none)
    (hfa : factory s = (Except.error e, s2)) :
    create_named_mbox mk_proxy factory key s = (Except.error e, s2) := by
  simp [create_named_mbox, hfind, hfa]

theorem create_named_mbox_absent_mk_err
    (mk_proxy : full_named_mbox_id_t → mbox_t → Except so_error mbox_t)
    (factory : mbox_core_t → Except so_error mbox_t × mbox_core_t)
    (key : full_named_mbox_id_t) (s s2 : mbox_core_t) (val : mbox_t)
    (e : so_error)
    (hfind : dict_find s.m_named_mboxes_dictionary key = none)
    (hfa : factory s = (Except.ok val, s2))
    (hmk : mk_proxy key val = Except.error e) :
    create_named_mbox mk_proxy factory key s = (Except.error e, s2) := by
  simp [create_named_mbox, hfind, hfa, hmk]

theorem create_named_mbox_absent_ok
    (mk_proxy : full_named_mbox_id_t → mbox_t → Except so_error mbox_t)
    (factory : mbox_core_t → Except so_error mbox_t × mbox_core_t)
    (key : full_named_mbox_id_t) (s s2 : mbox_core_t) (val : mbox_t)
    (result : mbox_t)
    (hfind : dict_find s.m_named_mboxes_dictionary key = none)
    (hfa : factory s = (Except.ok val, s2))
    (hmk : mk_proxy key val = Except.ok result) :
    create_named_mbox mk_proxy factory key s =
      (Except.ok result, { s2 with m_named_mboxes_dictionary := dict_emplace s2.m_named_mboxes_dictionary key (named_mbox_info_t.mk val 1) }) := by
  simp [create_named_mbox, hfind, hfa, hmk]

theorem dict_set_absent (d : named_mboxes_dictionary_t)
    (k : full_named_mbox_id_t) (v : named_mbox_info_t)
    (h : dict_find d k = none) : dict_set d k v = d := by
  induction d with
  | nil => rfl
  | cons p rest ih =>
      by_cases hp : p.1 = k
      · simp [dict_find, hp] at h
      · simp [dict_find, hp] at h
        simp [dict_set, hp, ih h]

theorem dict_invariant_erase (d : named_mboxes_dictionary_t)
    (k : full_named_mbox_id_t) (hwf : dict_wf d)
    (hinv : dict_invariant d) : dict_invariant (dict_erase d k) := by
  intro k' info hfind
  by_cases hk : k' = k
  · rw [hk, dict_find_erase_self d k hwf] at hfind
    cases hfind
  · rw [dict_find_erase_ne d k k' hk] at hfind
    exact hinv k' info hfind

theorem dict_invariant_set_pos (d : named_mboxes_dictionary_t)
    (k : full_named_mbox_id_t) (v : named_mbox_info_t)
    (hv : 0 < v.m_external_ref_count)
    (hinv : dict_invariant d) : dict_invariant (dict_set d k v) := by
  intro k' info hfind
  by_cases hk : k' = k
  · cases hf : dict_find d k with
    | none =>
        rw [hk, dict_set_absent d k v hf] at hfind
        rw [hf] at hfind
        cases hfind
    | some i0 =>
        rw [hk, dict_find_set_self d k v (by rw [hf]; rfl)] at hfind
        injection hfind with he
        rw [← he]
        exact hv
  · rw [dict_find_set_ne d k k' v hk] at hfind
    exact hinv k' info hfind

theorem dict_invariant_destroy (key : full_named_mbox_id_t)
    (s : mbox_core_t) (hwf : dict_wf s.m_named_mboxes_dictionary)
    (hinv : dict_invariant s.m_named_mboxes_dictionary) :
    dict_invariant (destroy_mbox key s).m_named_mboxes_dictionary := by
  cases hfind : dict_find s.m_named_mboxes_dictionary key with
  | none => rw [destroy_mbox_absent key s hfind]; exact hinv
  | some info =>
      by_cases hc : info.m_external_ref_count ≤ 1
      · rw [destroy_mbox_last key s info hfind hc]
        exact dict_invariant_erase _ _ hwf hinv
      · rw [destroy_mbox_decrement key s info hfind (by omega)]
        exact dict_invariant_set_pos _ _ _ (by simp; omega) hinv

/-- Claim C1: the dictionary/ref-count invariant. The invariant "an entry
exists if and only if its count is positive" (equivalently: every stored
count is positive); every successful create-or-attach raises the key's
count by one (from 0, i.e. fresh with count 1, when absent) and preserves
the invariant; every release lowers it by one, erasing the entry exactly
when the count reaches 0, and preserves the invariant. -/
theorem claim_C1_dictionary_refcount_invariant
    (mk_proxy : full_named_mbox_id_t → mbox_t → Except so_error mbox_t)
    (factory : mbox_core_t → Except so_error mbox_t × mbox_core_t)
    (key : full_named_mbox_id_t) (s : mbox_core_t)
    (hfac : factory_keeps_dictionary factory) :
    (∀ d : named_mboxes_dictionary_t,
      dict_invariant d ↔
        ∀ k, (dict_find d k).isSome ↔ 0 < ref_count_of d k) ∧
    (∀ (m : mbox_t) (s1 : mbox_core_t),
      create_named_mbox mk_proxy factory key s = (Except.ok m, s1) →
      ref_count_of s1.m_named_mboxes_dictionary key =
        ref_count_of s.m_named_mboxes_dictionary key + 1 ∧
      (dict_invariant s.m_named_mboxes_dictionary →
        dict_invariant s1.m_named_mboxes_dictionary)) ∧
    (dict_wf s.m_named_mboxes_dictionary →
      ref_count_of (destroy_mbox key s).m_named_mboxes_dictionary key =
        ref_count_of s.m_named_mboxes_dictionary key - 1 ∧
      (dict_find (destroy_mbox key s).m_named_mboxes_dictionary key = none ↔
        ref_count_of s.m_named_mboxes_dictionary key ≤ 1) ∧
      (dict_invariant s.m_named_mboxes_dictionary →
        dict_invariant (destroy_mbox key s).m_named_mboxes_dictionary)) := by
  refine ⟨?_, ?_, ?_⟩
  · intro d
    constructor
    · intro hinv k
      constructor
      · intro hsome
        cases hf : dict_find d k with
        | none => rw [hf] at hsome; cases hsome
        | some i =>
            rw [ref_count_of_some d k i hf]
            exact hinv k i hf
      · intro hpos
        cases hf : dict_find d k with
        | none => rw [ref_count_of_none d k hf] at hpos; omega
        | some i => rfl
    · intro hr k info hfind
      have hp := (hr k).mp (by rw [hfind]; rfl)
      rwa [ref_count_of_some d k info hfind] at hp
  · intro m s1 h
    cases hfind : dict_find s.m_named_mboxes_dictionary key with
    | some info =>
        cases hmk : mk_proxy key info.m_mbox with
        | error e =>
            rw [create_named_mbox_present_err mk_proxy factory key s info e
              hfind hmk] at h
            simp at h
        | ok result =>
            rw [create_named_mbox_present_ok mk_proxy factory key s info
              result hfind hmk] at h
            injection h with h1 h2
            rw [← h2]
            constructor
            · simp only
              rw [ref_count_of_increment _ _ (by rw [hfind]; rfl)]
            · intro hinv
              exact dict_invariant_increment _ _ hinv
    | none =>
        rcases hfa : factory s with ⟨r, s2⟩
        have hdict : s2.m_named_mboxes_dictionary =
            s.m_named_mboxes_dictionary := by
          have hk := hfac s
          rw [hfa] at hk
          exact hk
        cases r with
        | error e =>
            rw [create_named_mbox_absent_fac_err mk_proxy factory key s s2 e
              hfind hfa] at h
            simp at h
        | ok val =>
            cases hmk : mk_proxy key val with
            | error e =>
                rw [create_named_mbox_absent_mk_err mk_proxy factory key s s2
                  val e hfind hfa hmk] at h
                simp at h
            | ok result =>
                rw [create_named_mbox_absent_ok mk_proxy factory key s s2 val
                  result hfind hfa hmk] at h
                injection h with h1 h2
                rw [← h2]
                constructor
                · simp only
                  rw [hdict, ref_count_of_emplace _ _ _ hfind,
                    ref_count_of_none _ _ hfind]
                · intro hinv
                  simp only
                  rw [hdict]
                  exact dict_invariant_emplace_one _ _ _ hinv
  · intro hwf
    refine ⟨?_, ?_, fun hinv => dict_invariant_destroy key s hwf hinv⟩
    · cases hfind : dict_find s.m_named_mboxes_dictionary key with
      | none =>
          rw [destroy_mbox_absent key s hfind,
            ref_count_of_none _ _ hfind]
      | some info =>
          rw [ref_count_of_some _ _ _ hfind]
          by_cases hc : info.m_external_ref_count ≤ 1
          · rw [destroy_mbox_last key s info hfind hc]
            simp only
            rw [ref_count_of_none _ _ (dict_find_erase_self _ _ hwf)]
            omega
          · rw [destroy_mbox_decrement key s info hfind (by omega)]
            simp only
            rw [ref_count_of_some _ _ _
              (dict_find_set_self _ _ _ (by rw [hfind]; rfl))]
    · cases hfind : dict_find s.m_named_mboxes_dictionary key with
      | none =>
          rw [destroy_mbox_absent key s hfind, hfind,
            ref_count_of_none _ _ hfind]
          simp
      | some info =>
          rw [ref_count_of_some _ _ _ hfind]
          by_cases hc : info.m_external_ref_count ≤ 1
          · rw [destroy_mbox_last key s info hfind hc]
            simp only
            rw [dict_find_erase_self _ _ hwf]
            simp [hc]
          · rw [destroy_mbox_decrement key s info hfind (by omega)]
            simp only
            rw [dict_find_set_self _ _ _ (by rw [hfind]; rfl)]
            simp [hc]

theorem claim_C1_witness :
    ref_count_of
      ((create_named_mbox mk_named_local_mbox anonymous_factory
        (full_named_mbox_id_t.mk "g" "n") (mbox_core_make false)).2).m_named_mboxes_dictionary
      (full_named_mbox_id_t.mk "g" "n") =
      ref_count_of (mbox_core_make false).m_named_mboxes_dictionary
        (full_named_mbox_id_t.mk "g" "n") + 1 :=
  ((claim_C1_dictionary_refcount_invariant mk_named_local_mbox
    anonymous_factory (full_named_mbox_id_t.mk "g" "n")
    (mbox_core_make false) anonymous_factory_keeps_dictionary).2.1
    (mbox_t.named_local_mbox (full_named_mbox_id_t.mk "g" "n")
      (mbox_t.local_mbox_without_tracing 2))
    (mbox_core_t.mk false 2
      [(full_named_mbox_id_t.mk "g" "n",
        named_mbox_info_t.mk (mbox_t.local_mbox_without_tracing 2) 1)])
    rfl).1

/-- Claim C4: attach aliasing. Two sequential `create_named_endpoint` calls
with the same valid (namespace, name) pair return named aliases wrapping the
same underlying mbox; the second call changes nothing but incrementing the
entry's reference count; after one release the entry is still present (count
at least one), and a third call still attaches to the same underlying mbox. -/
theorem claim_C4_attach_aliasing (ns nm : String) (s0 : mbox_core_t)
    (hns : ns.isEmpty = false) (hnm : nm.isEmpty = false) :
    ∃ (u : mbox_t) (s1 s2 : mbox_core_t) (c : Nat),
      create_named_endpoint ns nm s0 =
        (Except.ok (mbox_t.named_local_mbox (full_named_mbox_id_t.mk ns nm) u), s1) ∧
      create_named_endpoint ns nm s1 =
        (Except.ok (mbox_t.named_local_mbox (full_named_mbox_id_t.mk ns nm) u), s2) ∧
      s2 = { s1 with m_named_mboxes_dictionary := dict_increment s1.m_named_mboxes_dictionary (full_named_mbox_id_t.mk ns nm) } ∧
      dict_find s2.m_named_mboxes_dictionary (full_named_mbox_id_t.mk ns nm) =
        some (named_mbox_info_t.mk u c) ∧
      2 ≤ c ∧
      dict_find (destroy_mbox (full_named_mbox_id_t.mk ns nm) s2).m_named_mboxes_dictionary
          (full_named_mbox_id_t.mk ns nm) =
        some (named_mbox_info_t.mk u (c - 1)) ∧
      (create_named_endpoint ns nm
          (destroy_mbox (full_named_mbox_id_t.mk ns nm) s2)).1 =
        Except.ok (mbox_t.named_local_mbox (full_named_mbox_id_t.mk ns nm) u) := by
  obtain ⟨u, s1, h1, hf1⟩ := create_named_endpoint_post ns nm s0 hns hnm
  have h2 := create_named_endpoint_present ns nm s1
    (named_mbox_info_t.mk u
      (ref_count_of s0.m_named_mboxes_dictionary (full_named_mbox_id_t.mk ns nm) + 1))
    hns hnm hf1
  have hfind2 : dict_find
      (dict_increment s1.m_named_mboxes_dictionary (full_named_mbox_id_t.mk ns nm))
      (full_named_mbox_id_t.mk ns nm) =
      some (named_mbox_info_t.mk u
        (ref_count_of s0.m_named_mboxes_dictionary (full_named_mbox_id_t.mk ns nm) + 2)) := by
    rw [dict_find_increment_self, hf1]
    rfl
  refine ⟨u, s1,
    { s1 with m_named_mboxes_dictionary := dict_increment s1.m_named_mboxes_dictionary (full_named_mbox_id_t.mk ns nm) },
    ref_count_of s0.m_named_mboxes_dictionary (full_named_mbox_id_t.mk ns nm) + 2,
    h1, h2, rfl, hfind2, by omega, ?_, ?_⟩
  · rw [destroy_mbox_decrement _ _ _ hfind2 (by simp)]
    simp only
    rw [dict_find_set_self _ _ _ (by rw [hfind2]; rfl)]
  · rw [destroy_mbox_decrement _ _ _ hfind2 (by simp)]
    have hfind4 := dict_find_set_self
      (dict_increment s1.m_named_mboxes_dictionary (full_named_mbox_id_t.mk ns nm))
      (full_named_mbox_id_t.mk ns nm)
      (named_mbox_info_t.mk u
        (ref_count_of s0.m_named_mboxes_dictionary (full_named_mbox_id_t.mk ns nm) + 2 - 1))
      (by rw [hfind2]; rfl)
    rw [create_named_endpoint_present ns nm _ _ hns hnm hfind4]

theorem create_named_n_present (ns nm : String)
    (hns : ns.isEmpty = false) (hnm : nm.isEmpty = false) :
    ∀ (m : Nat) (s : mbox_core_t) (u : mbox_t) (c : Nat),
    dict_find s.m_named_mboxes_dictionary (full_named_mbox_id_t.mk ns nm) =
      some (named_mbox_info_t.mk u c) →
    dict_find (create_named_n m ns nm s).m_named_mboxes_dictionary
        (full_named_mbox_id_t.mk ns nm) =
      some (named_mbox_info_t.mk u (c + m)) ∧
    (create_named_n m ns nm s).m_mbox_id_counter = s.m_mbox_id_counter ∧
    (dict_wf s.m_named_mboxes_dictionary →
      dict_wf (create_named_n m ns nm s).m_named_mboxes_dictionary) := by
  intro m
  induction m with
  | zero =>
      intro s u c hfind
      exact ⟨hfind, rfl, fun h => h⟩
  | succ m ih =>
      intro s u c hfind
      have hstep := create_named_endpoint_present ns nm s
        (named_mbox_info_t.mk u c) hns hnm hfind
      have hnext : (create_named_endpoint ns nm s).2 =
          { s with m_named_mboxes_dictionary := dict_increment s.m_named_mboxes_dictionary (full_named_mbox_id_t.mk ns nm) } := by
        rw [hstep]
      have hfind' : dict_find
          ((create_named_endpoint ns nm s).2).m_named_mboxes_dictionary
          (full_named_mbox_id_t.mk ns nm) =
          some (named_mbox_info_t.mk u (c + 1)) := by
        rw [hnext]
        simp only
        rw [dict_find_increment_self, hfind]
        rfl
      have hrec := ih ((create_named_endpoint ns nm s).2) u (c + 1) hfind'
      have hn : create_named_n (m + 1) ns nm s =
          create_named_n m ns nm ((create_named_endpoint ns nm s).2) := rfl
      rw [hn]
      refine ⟨?_, ?_, ?_⟩
      · rw [hrec.1]
        have : c + 1 + m = c + (m + 1) := by omega
        rw [this]
      · rw [hrec.2.1, hnext]
      · intro hwf
        refine hrec.2.2 ?_
        rw [hnext]
        simp only
        exact dict_wf_increment _ _ hwf

theorem destroy_n_removes (key : full_named_mbox_id_t) :
    ∀ (c : Nat) (s : mbox_core_t) (u : mbox_t),
    1 ≤ c → dict_wf s.m_named_mboxes_dictionary →
    dict_find s.m_named_mboxes_dictionary key =
      some (named_mbox_info_t.mk u c) →
    dict_find (destroy_n c key s).m_named_mboxes_dictionary key = none ∧
    (destroy_n c key s).m_mbox_id_counter = s.m_mbox_id_counter := by
  intro c
  induction c with
  | zero => intro s u hc; omega
  | succ c ih =>
      intro s u hc hwf hfind
      have hstep : destroy_n (c + 1) key s =
          destroy_n c key (destroy_mbox key s) := rfl
      by_cases hc0 : c = 0
      · subst hc0
        have hlast := destroy_mbox_last key s (named_mbox_info_t.mk u 1)
          hfind (by simp)
        have h01 : destroy_n 1 key s = destroy_mbox key s := rfl
        rw [h01, hlast]
        simp only
        exact ⟨dict_find_erase_self _ _ hwf, trivial⟩
      · have hdec := destroy_mbox_decrement key s
          (named_mbox_info_t.mk u (c + 1)) hfind (by simp; omega)
        have hfind' : dict_find
            (destroy_mbox key s).m_named_mboxes_dictionary key =
            some (named_mbox_info_t.mk u c) := by
          rw [hdec]
          simp only
          rw [dict_find_set_self _ _ _ (by rw [hfind]; rfl)]
          rfl
        have hwf' : dict_wf (destroy_mbox key s).m_named_mboxes_dictionary := by
          rw [hdec]
          exact dict_wf_set _ _ _ hwf
        have hrec := ih (destroy_mbox key s) u (by omega) hwf' hfind'
        rw [hstep]
        refine ⟨hrec.1, ?_⟩
        rw [hrec.2, (destroy_mbox_state key s).1]

/-- Claim C5: create/release round trip. Starting from a state where the
(namespace, name) pair is absent, `n ≥ 1` create calls leave the entry with
count `n` wrapping the freshly created mbox; `n` releases remove the entry;
a subsequent create takes the factory path again and binds the name to a
new underlying mbox whose identity differs from the released one. -/
theorem claim_C5_create_release_round_trip (ns nm : String)
    (s0 : mbox_core_t) (n : Nat)
    (hns : ns.isEmpty = false) (hnm : nm.isEmpty = false)
    (habs : dict_find s0.m_named_mboxes_dictionary (full_named_mbox_id_t.mk ns nm) = none)
    (hwf : dict_wf s0.m_named_mboxes_dictionary)
    (hn : 1 ≤ n) :
    dict_find (create_named_n n ns nm s0).m_named_mboxes_dictionary
        (full_named_mbox_id_t.mk ns nm) =
      some (named_mbox_info_t.mk (create_mbox s0).1 n) ∧
    dict_find (destroy_n n (full_named_mbox_id_t.mk ns nm)
        (create_named_n n ns nm s0)).m_named_mboxes_dictionary
        (full_named_mbox_id_t.mk ns nm) = none ∧
    (∃ s3 : mbox_core_t,
      create_named_endpoint ns nm
          (destroy_n n (full_named_mbox_id_t.mk ns nm)
            (create_named_n n ns nm s0)) =
        (Except.ok (mbox_t.named_local_mbox (full_named_mbox_id_t.mk ns nm)
          (create_mbox (destroy_n n (full_named_mbox_id_t.mk ns nm)
            (create_named_n n ns nm s0))).1), s3) ∧
      mbox_id (create_mbox (destroy_n n (full_named_mbox_id_t.mk ns nm)
          (create_named_n n ns nm s0))).1 ≠
        mbox_id (create_mbox s0).1) := by
  rcases n with _ | m
  · omega
  have h1 := create_named_endpoint_absent ns nm s0 hns hnm habs
  have hs1 : (create_named_endpoint ns nm s0).2 =
      { (create_mbox s0).2 with m_named_mboxes_dictionary := dict_emplace s0.m_named_mboxes_dictionary (full_named_mbox_id_t.mk ns nm) (named_mbox_info_t.mk (create_mbox s0).1 1) } := by
    rw [h1]
  have hf1 : dict_find
      ((create_named_endpoint ns nm s0).2).m_named_mboxes_dictionary
      (full_named_mbox_id_t.mk ns nm) =
      some (named_mbox_info_t.mk (create_mbox s0).1 1) := by
    rw [hs1]
    simp only
    exact dict_find_emplace_self _ _ _ habs
  have hwf1 : dict_wf
      ((create_named_endpoint ns nm s0).2).m_named_mboxes_dictionary := by
    rw [hs1]
    simp only
    exact dict_wf_emplace _ _ _ habs hwf
  have hcnt1 : ((create_named_endpoint ns nm s0).2).m_mbox_id_counter =
      (s0.m_mbox_id_counter + 1) % ID_MOD := by
    rw [hs1]
    simp only
    rw [create_mbox_state]
  have hrest := create_named_n_present ns nm hns hnm m
    ((create_named_endpoint ns nm s0).2) (create_mbox s0).1 1 hf1
  have hnn : create_named_n (m + 1) ns nm s0 =
      create_named_n m ns nm ((create_named_endpoint ns nm s0).2) := rfl
  have hfinal : dict_find
      (create_named_n (m + 1) ns nm s0).m_named_mboxes_dictionary
      (full_named_mbox_id_t.mk ns nm) =
      some (named_mbox_info_t.mk (create_mbox s0).1 (m + 1)) := by
    rw [hnn, hrest.1]
    have : 1 + m = m + 1 := by omega
    rw [this]
  have hwf2 : dict_wf
      (create_named_n (m + 1) ns nm s0).m_named_mboxes_dictionary := by
    rw [hnn]
    exact hrest.2.2 hwf1
  have hcnt2 : (create_named_n (m + 1) ns nm s0).m_mbox_id_counter =
      (s0.m_mbox_id_counter + 1) % ID_MOD := by
    rw [hnn, hrest.2.1, hcnt1]
  have hdes := destroy_n_removes (full_named_mbox_id_t.mk ns nm) (m + 1)
    (create_named_n (m + 1) ns nm s0) (create_mbox s0).1 (by omega)
    hwf2 hfinal
  refine ⟨hfinal, hdes.1, ?_⟩
  have h3 := create_named_endpoint_absent ns nm
    (destroy_n (m + 1) (full_named_mbox_id_t.mk ns nm)
      (create_named_n (m + 1) ns nm s0)) hns hnm hdes.1
  refine ⟨_, h3, ?_⟩
  rw [create_mbox_id, create_mbox_id, hdes.2, hcnt2]
  have hmlt : (s0.m_mbox_id_counter + 1) % ID_MOD < ID_MOD :=
    Nat.mod_lt _ (by rw [ID_MOD]; norm_num)
  exact mod_succ_ne _ _ (by rw [ID_MOD]; norm_num) hmlt

theorem claim_C4_witness :
    ∃ (u : mbox_t) (s1 s2 : mbox_core_t) (c : Nat),
      create_named_endpoint "g" "n" (mbox_core_make false) =
        (Except.ok (mbox_t.named_local_mbox (full_named_mbox_id_t.mk "g" "n") u), s1) ∧
      create_named_endpoint "g" "n" s1 =
        (Except.ok (mbox_t.named_local_mbox (full_named_mbox_id_t.mk "g" "n") u), s2) ∧
      s2 = { s1 with m_named_mboxes_dictionary := dict_increment s1.m_named_mboxes_dictionary (full_named_mbox_id_t.mk "g" "n") } ∧
      dict_find s2.m_named_mboxes_dictionary (full_named_mbox_id_t.mk "g" "n") =
        some (named_mbox_info_t.mk u c) ∧
      2 ≤ c ∧
      dict_find (destroy_mbox (full_named_mbox_id_t.mk "g" "n") s2).m_named_mboxes_dictionary
          (full_named_mbox_id_t.mk "g" "n") =
        some (named_mbox_info_t.mk u (c - 1)) ∧
      (create_named_endpoint "g" "n"
          (destroy_mbox (full_named_mbox_id_t.mk "g" "n") s2)).1 =
        Except.ok (mbox_t.named_local_mbox (full_named_mbox_id_t.mk "g" "n") u) :=
  claim_C4_attach_aliasing "g" "n" (mbox_core_make false) rfl rfl

theorem claim_C5_witness :
    dict_find (destroy_n 2 (full_named_mbox_id_t.mk "g" "n")
        (create_named_n 2 "g" "n" (mbox_core_make false))).m_named_mboxes_dictionary
        (full_named_mbox_id_t.mk "g" "n") = none :=
  (claim_C5_create_release_round_trip "g" "n" (mbox_core_make false) 2
    rfl rfl rfl List.nodup_nil (by decide)).2.1

theorem num_allocations_cons (op : create_op) (ops : List create_op) :
    num_allocations (op :: ops) = op_allocates op + num_allocations ops := by
  simp [num_allocations]

theorem run_op_spec (op : create_op) (s : mbox_core_t)
    (h : s.m_mbox_id_counter + op_allocates op < ID_MOD) :
    (run_op op s).2.m_mbox_id_counter =
      s.m_mbox_id_counter + op_allocates op ∧
    (∀ i : Nat, (run_op op s).1 = some i →
      i = s.m_mbox_id_counter + 1 ∧ op_allocates op = 1) := by
  cases op with
  | op_create_mbox =>
      have h1 : s.m_mbox_id_counter + 1 < ID_MOD := by
        simpa [op_allocates] using h
      constructor
      · rw [run_op]
        simp only
        rw [create_mbox_state]
        simp [op_allocates, Nat.mod_eq_of_lt h1]
      · intro i hi
        rw [run_op] at hi
        simp only at hi
        rw [create_mbox_id, Nat.mod_eq_of_lt h1] at hi
        injection hi with hi
        exact ⟨hi.symm, rfl⟩
  | op_create_ordinary_mpsc owner =>
      have h1 : s.m_mbox_id_counter + 1 < ID_MOD := by
        simpa [op_allocates] using h
      cases htr : s.m_msg_tracing_enabled <;>
        simp [run_op, create_ordinary_mpsc_mbox, make_actual_mbox,
          allocate_mbox_id, htr, mbox_id, op_allocates,
          Nat.mod_eq_of_lt h1]
  | op_create_limitless_mpsc owner =>
      have h1 : s.m_mbox_id_counter + 1 < ID_MOD := by
        simpa [op_allocates] using h
      cases htr : s.m_msg_tracing_enabled <;>
        simp [run_op, create_limitless_mpsc_mbox, make_actual_mbox,
          allocate_mbox_id, htr, mbox_id, op_allocates,
          Nat.mod_eq_of_lt h1]
  | op_create_custom creator =>
      have h1 : s.m_mbox_id_counter + 1 < ID_MOD := by
        simpa [op_allocates] using h
      simp [run_op, create_custom_mbox, allocate_mbox_id, op_allocates,
        Nat.mod_eq_of_lt h1]
  | op_create_mchain params =>
      have h1 : s.m_mbox_id_counter + 1 < ID_MOD := by
        simpa [op_allocates] using h
      simp [run_op, create_mchain, allocate_mbox_id, op_allocates,
        Nat.mod_eq_of_lt h1]
  | op_allocate_mbox_id =>
      have h1 : s.m_mbox_id_counter + 1 < ID_MOD := by
        simpa [op_allocates] using h
      simp [run_op, allocate_mbox_id, op_allocates, Nat.mod_eq_of_lt h1]
  | op_destroy_mbox key =>
      constructor
      · rw [run_op]
        simp only
        rw [(destroy_mbox_state key s).1]
        simp [op_allocates]
      · intro i hi
        rw [run_op] at hi
        cases hi

theorem run_ops_spec (ops : List create_op) :
    ∀ s : mbox_core_t,
    s.m_mbox_id_counter + num_allocations ops < ID_MOD →
    (run_ops ops s).2.m_mbox_id_counter =
      s.m_mbox_id_counter + num_allocations ops ∧
    (∀ i ∈ (run_ops ops s).1,
      s.m_mbox_id_counter < i ∧
      i ≤ (run_ops ops s).2.m_mbox_id_counter) ∧
    ((run_ops ops s).1).Pairwise (· < ·) := by
  induction ops with
  | nil =>
      intro s h
      refine ⟨by simp [run_ops, num_allocations], ?_, by simp [run_ops]⟩
      intro i hi
      simp [run_ops] at hi
  | cons op rest ih =>
      intro s h
      rw [num_allocations_cons] at h
      have h1 : s.m_mbox_id_counter + op_allocates op < ID_MOD := by
        omega
      have hop := run_op_spec op s h1
      have h2 : ((run_op op s).2).m_mbox_id_counter +
          num_allocations rest < ID_MOD := by
        rw [hop.1]; omega
      have hih := ih ((run_op op s).2) h2
      have hrun : run_ops (op :: rest) s =
          (match (run_op op s).1 with
            | some i => i :: (run_ops rest (run_op op s).2).1
            | none => (run_ops rest (run_op op s).2).1,
           (run_ops rest (run_op op s).2).2) := rfl
      cases hr1 : (run_op op s).1 with
      | none =>
          rw [hrun, hr1]
          simp only
          have ha : op_allocates op = 0 ∨ op_allocates op = 1 := by
            cases op <;> simp [op_allocates]
          refine ⟨?_, ?_, hih.2.2⟩
          · rw [hih.1, hop.1, num_allocations_cons]
            omega
          · intro i hi
            have hb := hih.2.1 i hi
            constructor
            · have : s.m_mbox_id_counter ≤
                  ((run_op op s).2).m_mbox_id_counter := by
                rw [hop.1]; omega
              omega
            · exact hb.2
      | some i0 =>
          have hi0 := hop.2 i0 hr1
          rw [hrun, hr1]
          simp only
          refine ⟨?_, ?_, ?_⟩
          · rw [hih.1, hop.1, num_allocations_cons]
            omega
          · intro i hi
            rcases List.mem_cons.mp hi with hh | hh
            · subst hh
              constructor
              · omega
              · rw [hih.1, hop.1, hi0.2]
                omega
            · have hb := hih.2.1 i hh
              constructor
              · have : s.m_mbox_id_counter ≤
                    ((run_op op s).2).m_mbox_id_counter := by
                  rw [hop.1]; omega
                omega
              · exact hb.2
          · rw [List.pairwise_cons]
            refine ⟨?_, hih.2.2⟩
            intro j hj
            have hb := hih.2.1 j hj
            have : ((run_op op s).2).m_mbox_id_counter =
                s.m_mbox_id_counter + 1 := by
              rw [hop.1, hi0.2]
            omega

/-- Claim C6: identity monotonicity and uniqueness. Every creation
operation (`create_mbox`, `create_ordinary_mpsc_mbox`,
`create_limitless_mpsc_mbox`, `create_custom_mbox`, `create_mchain`,
`allocate_mbox_id`) draws from the single shared counter; along any
sequence of such calls (with `destroy_mbox` calls interleaved arbitrarily)
that keeps the counter below its wrap point, the drawn identities are
strictly increasing in call order, pairwise distinct, all strictly above
the starting counter (so an identity is never reused, even after the mbox
carrying it was destroyed — destruction never moves the counter), and the
final counter equals the start plus the number of allocations. -/
theorem claim_C6_identity_monotonicity (ops : List create_op)
    (s : mbox_core_t)
    (h : s.m_mbox_id_counter + num_allocations ops < ID_MOD) :
    ((run_ops ops s).1).Pairwise (· < ·) ∧
    ((run_ops ops s).1).Nodup ∧
    (∀ i ∈ (run_ops ops s).1, s.m_mbox_id_counter < i) ∧
    (run_ops ops s).2.m_mbox_id_counter =
      s.m_mbox_id_counter + num_allocations ops := by
  have hs := run_ops_spec ops s h
  refine ⟨hs.2.2, ?_, fun i hi => (hs.2.1 i hi).1, hs.1⟩
  exact List.Pairwise.imp (fun hlt => Nat.ne_of_lt hlt) hs.2.2

theorem claim_C6_witness :
    ((run_ops [create_op.op_create_mbox,
        create_op.op_destroy_mbox (full_named_mbox_id_t.mk "g" "n"),
        create_op.op_allocate_mbox_id] (mbox_core_make false)).1).Nodup :=
  (claim_C6_identity_monotonicity
    [create_op.op_create_mbox,
      create_op.op_destroy_mbox (full_named_mbox_id_t.mk "g" "n"),
      create_op.op_allocate_mbox_id] (mbox_core_make false)
    (by decide)).2.1

/-- Claim C6 (counterexample): the unconditional monotonicity statement
fails at the counter's wrap point. Starting with the counter at
`ID_MOD - 2`, two allocations draw the identities `[ID_MOD - 1, 0]`: the
second drawn identity is smaller than the first, so the identities returned
by this sequence of creation calls are not strictly increasing in call
order. -/
theorem claim_C6_counterexample :
    (run_ops [create_op.op_allocate_mbox_id, create_op.op_allocate_mbox_id]
      (mbox_core_t.mk false (ID_MOD - 2) [])).1 = [ID_MOD - 1, 0] ∧
    ¬ ((run_ops [create_op.op_allocate_mbox_id, create_op.op_allocate_mbox_id]
      (mbox_core_t.mk false (ID_MOD - 2) [])).1).Pairwise (· < ·) := by
  have h1 : (run_ops
      [create_op.op_allocate_mbox_id, create_op.op_allocate_mbox_id]
      (mbox_core_t.mk false (ID_MOD - 2) [])).1 = [ID_MOD - 1, 0] := by
    rfl
  refine ⟨h1, ?_⟩
  rw [h1]
  intro hp
  exact Nat.not_lt_zero _
    ((List.pairwise_cons.mp hp).1 0 (List.mem_singleton.mpr rfl))
